import Mathlib

/-!
# Verification of the incremental asset-recompression engine

Shallow embedding of `src/plugin.ts` (the `closeBundle` hook of the post
plugin, the codec-selection logic, the `optimizeSvg` wrapper, the mtime
cache and the verbose reporter).

Modelling conventions:
* file contents are byte lists (`List Nat`);
* the external codec libraries (`imagemin-webp`, `imagemin-pngquant`,
  `html-minifier-terser`, `zlib.brotliCompress`, `SVGO.optimize`) are
  black boxes, modelled as parameters of type `List Nat → Except String
  (List Nat)` collected in a `Codecs` record — `.error` models a thrown
  exception / rejected promise;
* the compiled glob regexes `excludeRegex` and `brotliExcludeRegex`
  (plugin.ts lines 77-83) are modelled as abstract predicates
  `String → Bool`;
* `Date.now()` at the moment a file's watermark is recorded is modelled
  by a schedule `tRec : String → Nat` (keyed by absolute path), and the
  mtime a write assigns to the file on disk by a schedule
  `tWr : String → Nat`; the code does not control the wall clock, so
  both are free parameters of a run;
* filesystem mutations are reified as a trace of `FsOp` values in the
  exact order the code awaits them (plugin.ts lines 263-271:
  `mtimeCache.set`, then `fsp.unlink` when renaming, then
  `fsp.writeFile`); chalk colouring of report lines is omitted (it is
  disabled on non-TTY channels).
-/

namespace ViteCompress

/-- A regular file in the output tree: path relative to the output root,
mtime in milliseconds (as returned by `fsp.stat`), and content bytes. -/
structure FsFile where
  name : String
  mtimeMs : Nat
  content : List Nat
deriving DecidableEq, Repr

/-- Suffix test on strings, modelling a `/\.ext$/` regex test: the last
`suffix.length` characters of `s` equal `suffix`. -/
def endsWithStr (s suffix : String) : Bool :=
  s.data.reverse.take suffix.data.length == suffix.data.reverse

/-- `defaultExts` from plugin.ts line 70. -/
def defaultExts : List String := ["html", "js", "css", "svg", "json"]

/-- `ext.replace(/^\./, '')` from plugin.ts line 89. -/
def stripLeadingDot (e : String) : String :=
  match e.data with
  | '.' :: rest => String.mk rest
  | _ => e

/-- The truthiness-resolved plugin options (plugin.ts lines 21-67).
`svgoEnabled` is `opts.svgo !== false`, `pngquantEnabled` is
`opts.pngquant !== false`, `webpEnabled` and `minifyHtmlEnabled` are the
truthiness of `opts.webp` / `opts.minifyHtml`. -/
structure PluginOpts where
  verbose : Bool
  threshold : Option Nat
  extensions : List String
  svgoEnabled : Bool
  pngquantEnabled : Bool
  webpEnabled : Bool
  minifyHtmlEnabled : Bool
deriving Repr

/-- `opts.threshold ?? 1501` (plugin.ts line 173). -/
def resolveThreshold : Option Nat → Nat
  | none => 1501
  | some t => t

/-- The extension allowlist regex `\.(png|html|js|css|svg|json|…)$`
(plugin.ts lines 85-92): `png` plus the defaults plus user extensions
with a leading dot stripped. -/
def extList (opts : PluginOpts) : List String :=
  "png" :: (defaultExts ++ opts.extensions.map stripLeadingDot)

/-- `extensionRegex.test name`. -/
def extensionTest (opts : PluginOpts) (name : String) : Bool :=
  (extList opts).any fun e => endsWithStr name ("." ++ e)

/-- `filePath.replace(pngExt, '.webp')` (plugin.ts line 207), on a path
that ends in `.png`: drop the four suffix characters and append
`.webp`. -/
def replacePngWebp (s : String) : String :=
  String.mk (s.data.take (s.data.length - 4)) ++ ".webp"

/-- The external codec functions, as black boxes.  An `.error` result
models a thrown exception or rejected promise from the library. -/
structure Codecs where
  webpEncode : List Nat → Except String (List Nat)
  pngquantEncode : List Nat → Except String (List Nat)
  minifyHtmlFn : List Nat → Except String (List Nat)
  brotliFn : List Nat → Except String (List Nat)
  svgoFn : List Nat → Except String (List Nat)

/-- `optimizeSvg` (plugin.ts lines 98-114): try the SVGO optimizer; on a
thrown error, log (a debug line, not modelled) and return the original
content unchanged. -/
def optimizeSvg (codecs : Codecs) (content : List Nat) : List Nat :=
  match codecs.svgoFn content with
  | .ok s => s
  | .error _ => content

/-- The compressor selected for a file (plugin.ts lines 197-250). -/
inductive Compressor where
  | webpC
  | pngquantC
  | htmlC (useBrotli : Bool)
  | brotliC
deriving DecidableEq, Repr

/-- Codec selection (plugin.ts lines 197-250): returns
`(newFilePath?, compress?)`.  For `.png`: webp conversion (with rename)
if enabled, else pngquant unless disabled, else nothing.  Otherwise
`useBrotli` requires the stat size to meet the threshold and neither the
relative nor the absolute path to match the brotli exclude regex; HTML
minification (when enabled) captures `useBrotli` for its internal
chain, else brotli alone when `useBrotli`. -/
def selectCompressor (opts : PluginOpts) (brexcl : String → Bool)
    (threshold oldSize : Nat) (name filePath : String) :
    Option String × Option Compressor :=
  if endsWithStr name ".png" then
    if opts.webpEnabled then
      (some (replacePngWebp filePath), some .webpC)
    else if opts.pngquantEnabled then
      (none, some .pngquantC)
    else (none, none)
  else
    let useBrotli :=
      decide (threshold ≤ oldSize) && !brexcl name && !brexcl filePath
    if opts.minifyHtmlEnabled && endsWithStr name ".html" then
      (none, some (.htmlC useBrotli))
    else if useBrotli then
      (none, some .brotliC)
    else (none, none)

/-- Running a selected compressor on the file content (plugin.ts lines
208-217, 225-246, 248).  The HTML compressor minifies, then chains into
brotli exactly when `useBrotli` held *and* the minified size still meets
the threshold (line 243). -/
def runCompressor (codecs : Codecs) (threshold : Nat) :
    Compressor → List Nat → Except String (List Nat)
  | .webpC, c => codecs.webpEncode c
  | .pngquantC, c => codecs.pngquantEncode c
  | .htmlC useBrotli, c => do
      let h ← codecs.minifyHtmlFn c
      if useBrotli && decide (threshold ≤ h.length) then codecs.brotliFn h
      else pure h
  | .brotliC, c => codecs.brotliFn c

/-- A filesystem / cache mutation, in the order the code awaits it. -/
inductive FsOp where
  | setCache (path : String) (t : Nat)
  | unlink (path : String)
  | write (path : String) (content : List Nat)
deriving DecidableEq, Repr

/-- `1 - content.byteLength / oldSize` (plugin.ts line 270). -/
def mkRatio (after before : Nat) : ℚ :=
  1 - (after : ℚ) / (before : ℚ)

deriving instance DecidableEq for Except

/-- Result of one per-file task: the mutation trace it performed and its
outcome — `.error` models the task's promise rejecting, `.ok none` a
skip, `.ok (some (name, ratio))` the entry added to the `compressed`
map. -/
structure FileResult where
  ops : List FsOp
  outcome : Except String (Option (String × ℚ))
deriving DecidableEq, Repr

/-- The content computed for a file that passed the gates (plugin.ts
lines 252-261): the SVG branch (`opts.svgo !== false && svgExt.test
(name)`) overrides the selected compressor and never fails; otherwise
the selected compressor runs on the file bytes; no selection means no
content (`.ok none`). -/
def decideContent (opts : PluginOpts) (codecs : Codecs)
    (brexcl : String → Bool) (threshold : Nat) (name filePath : String)
    (content : List Nat) : Except String (Option (List Nat)) :=
  if opts.svgoEnabled && endsWithStr name ".svg" then
    .ok (some (optimizeSvg codecs content))
  else
    match (selectCompressor opts brexcl threshold content.length name filePath).2 with
    | some c => (runCompressor codecs threshold c content).map some
    | none => .ok none

/-- One per-file task of `closeBundle` (plugin.ts lines 189-271):
extension / exclude / mtime gating, the content decision, then cache
update, optional unlink (rename) and write (lines 263-271, in that
order).  `cache` is the `mtimeCache` as read by this task, `tRec` gives
`Date.now()` at the moment `mtimeCache.set` runs for a given absolute
path; the stat size `oldSize` is the length of the file's bytes. -/
def processFile (opts : PluginOpts) (codecs : Codecs)
    (excl brexcl : String → Bool) (outRoot : String)
    (cache : String → Nat) (tRec : String → Nat) (f : FsFile) : FileResult :=
  if !extensionTest opts f.name || excl f.name then ⟨[], .ok none⟩
  else
    let filePath := outRoot ++ "/" ++ f.name
    if excl filePath then ⟨[], .ok none⟩
    else if f.mtimeMs ≤ cache filePath then ⟨[], .ok none⟩
    else
      let threshold := resolveThreshold opts.threshold
      match decideContent opts codecs brexcl threshold f.name filePath f.content,
            (selectCompressor opts brexcl threshold f.content.length
              f.name filePath).1 with
      | .error e, _ => ⟨[], .error e⟩
      | .ok none, _ => ⟨[], .ok none⟩
      | .ok (some newContent), some np =>
        ⟨[.setCache filePath (tRec filePath), .unlink filePath,
          .write np newContent],
         .ok (some (replacePngWebp f.name,
                    mkRatio newContent.length f.content.length))⟩
      | .ok (some newContent), none =>
        ⟨[.setCache filePath (tRec filePath), .write filePath newContent],
         .ok (some (f.name, mkRatio newContent.length f.content.length))⟩

/-- Absolute path an operation touches. -/
def FsOp.path : FsOp → String
  | .setCache p _ => p
  | .unlink p => p
  | .write p _ => p

/-- Effect of one operation on the `mtimeCache` (plugin.ts line 264). -/
def applyOpCache (cache : String → Nat) : FsOp → (String → Nat)
  | .setCache p t => fun q => if q = p then t else cache q
  | _ => cache

/-- Effect of one operation on the output tree.  `fsp.unlink` removes
the file at the path; `fsp.writeFile` replaces the content of an
existing file (assigning it the write-schedule mtime `tWr path`) or
creates a new file whose name is the path with `outRoot ++ "/"`
stripped. -/
def applyOpFs (outRoot : String) (tWr : String → Nat)
    (fs : List FsFile) : FsOp → List FsFile
  | .setCache _ _ => fs
  | .unlink p => fs.filter fun g => !(outRoot ++ "/" ++ g.name == p)
  | .write p c =>
      if fs.any (fun g => outRoot ++ "/" ++ g.name == p) then
        fs.map fun g =>
          if outRoot ++ "/" ++ g.name == p then ⟨g.name, tWr p, c⟩ else g
      else
        fs ++ [⟨(p.data.drop (outRoot.data.length + 1)).asString, tWr p, c⟩]

/-- `Math.floor(100 * ratio)` (plugin.ts line 286). -/
def percentSmaller (r : ℚ) : Int := Int.floor (100 * r)

/-- `' '.repeat n`. -/
def padSpaces (n : Nat) : String := String.mk (List.replicate n ' ')

/-- One verbose report line (plugin.ts lines 281-287, chalk colouring
omitted): two leading spaces, `outDir ++ "/" ++ name`, padding to two
past the longest name, then the floored percentage and `% smaller`. -/
def formatLine (outDirRel : String) (maxLen : Nat) (e : String × ℚ) : String :=
  "  " ++ outDirRel ++ "/" ++ e.1 ++ padSpaces (2 + maxLen - e.1.length)
    ++ toString (percentSmaller e.2) ++ "% smaller"

/-- The verbose report block (plugin.ts lines 275-290): emitted only
when `opts.verbose` is set; a header, one line per `compressed` entry,
and a trailing empty line. -/
def reportLogs (opts : PluginOpts) (outDirRel : String)
    (report : List (String × ℚ)) : List String :=
  if opts.verbose then
    let maxLen := (report.map fun e => e.1.length).foldl max 0
    "\nFiles compressed:" :: report.map (formatLine outDirRel maxLen) ++ [""]
  else []

/-- Result of one `closeBundle` run. -/
structure RunResult where
  results : List FileResult
  ops : List FsOp
  report : List (String × ℚ)
  failed : Bool
  cacheAfter : String → Nat
  fsAfter : List FsFile
  logs : List String

/-- One `closeBundle` run (plugin.ts lines 182-291) over the crawled
file list `fs`.  Every per-file task runs (concurrently in the source;
the tasks of distinct files touch distinct paths, and each task stats
its file before any task writes, so mapping over the original tree and
applying the concatenated mutation trace afterwards is a faithful
linearization).  `failed` records whether any task's promise rejected:
in that case `await Promise.all` throws, `closeBundle` rejects and the
verbose block never runs, so no log lines are emitted. -/
def runClose (opts : PluginOpts) (codecs : Codecs)
    (excl brexcl : String → Bool) (outRoot outDirRel : String)
    (cache tRec tWr : String → Nat) (fs : List FsFile) : RunResult :=
  let results := fs.map (processFile opts codecs excl brexcl outRoot cache tRec)
  let ops := (results.map FileResult.ops).flatten
  let report := results.filterMap fun r =>
    match r.outcome with
    | .ok (some e) => some e
    | _ => none
  let failed := results.any fun r =>
    match r.outcome with
    | .error _ => true
    | _ => false
  { results := results
    ops := ops
    report := report
    failed := failed
    cacheAfter := ops.foldl applyOpCache cache
    fsAfter := ops.foldl (applyOpFs outRoot tWr) fs
    logs := if failed then [] else reportLogs opts outDirRel report }

/-- Number of `write` operations in a trace. -/
def countWrites (ops : List FsOp) : Nat :=
  ops.countP fun op =>
    match op with
    | .write _ _ => true
    | _ => false

/-- Whether every `unlink` of `origPath` in the trace is preceded by an
earlier `write` of `newPath` (the ordering asserted by the
format-conversion atomicity property). -/
def unlinkAfterNewWrite (origPath newPath : String) : List FsOp → Bool :=
  go false
where
  go (written : Bool) : List FsOp → Bool
    | [] => true
    | .write q _ :: rest => go (written || q == newPath) rest
    | .unlink q :: rest => (!(q == origPath) || written) && go written rest
    | .setCache _ _ :: rest => go written rest

/-- Invariant describing every file of the tree while the batch's
mutation trace is folded in, one per-file block at a time: each file is
(1) an original file whose task performed no mutation (or whose block
is still pending in `todo`), (2) the in-place rewrite of an original
file, carrying the write-schedule mtime of its own absolute path, or
(3) a file whose name carries the next-gen (`.webp`) extension — the
update or creation target of a rename conversion. -/
def fsInv (opts : PluginOpts) (codecs : Codecs)
    (excl brexcl : String → Bool) (outRoot : String)
    (cache tRec tWr : String → Nat) (fs todo state : List FsFile) : Prop :=
  ∀ x ∈ state,
    (∃ g, g ∈ fs ∧ x = g ∧
      ((processFile opts codecs excl brexcl outRoot cache tRec g).ops = [] ∨
        g ∈ todo)) ∨
    (∃ g c, g ∈ fs ∧
      (processFile opts codecs excl brexcl outRoot cache tRec g).ops =
        [FsOp.setCache (outRoot ++ "/" ++ g.name)
          (tRec (outRoot ++ "/" ++ g.name)),
         FsOp.write (outRoot ++ "/" ++ g.name) c] ∧
      x = ⟨g.name, tWr (outRoot ++ "/" ++ g.name), c⟩) ∨
    endsWithStr x.name ".webp" = true

/-! ## Concrete fixtures (used by closed witness / counterexample statements) -/

/-- No glob patterns configured: `/^$/` matches no (nonempty) path. -/
def noMatch : String → Bool := fun _ => false

/-- An empty `mtimeCache` (absent entries read as `0`). -/
def zeroCache : String → Nat := fun _ => 0

/-- A constant wall-clock schedule. -/
def constSched (n : Nat) : String → Nat := fun _ => n

/-- Well-behaved black-box codecs for concrete runs: each succeeds with
a simple transformation (the HTML minifier deliberately may grow its
input, which the contract of the external library does not forbid). -/
def okCodecs : Codecs where
  webpEncode _ := .ok [7, 7]
  pngquantEncode c := .ok (c.take 2)
  minifyHtmlFn c := .ok (c ++ c)
  brotliFn c := .ok (c.take 1)
  svgoFn c := .ok (c.take 3)

/-- Codecs that all throw, modelling library failures. -/
def failCodecs : Codecs where
  webpEncode _ := .error "webp failed"
  pngquantEncode _ := .error "pngquant failed"
  minifyHtmlFn _ := .error "minify failed"
  brotliFn _ := .error "brotli failed"
  svgoFn _ := .error "svgo failed"

/-- Codecs where only the SVG optimizer throws. -/
def svgoFailCodecs : Codecs where
  webpEncode _ := .ok [7, 7]
  pngquantEncode c := .ok (c.take 2)
  minifyHtmlFn c := .ok (c ++ c)
  brotliFn c := .ok (c.take 1)
  svgoFn _ := .error "Error in parsing SVG"

/-- Codecs where only brotli throws. -/
def brotliFailCodecs : Codecs where
  webpEncode _ := .ok [7, 7]
  pngquantEncode c := .ok (c.take 2)
  minifyHtmlFn c := .ok (c ++ c)
  brotliFn _ := .error "brotli failed"
  svgoFn c := .ok (c.take 3)

/-- Default-ish options: everything at its default truthiness, verbose
on, default threshold 1501. -/
def defOpts : PluginOpts where
  verbose := true
  threshold := none
  extensions := []
  svgoEnabled := true
  pngquantEnabled := true
  webpEnabled := false
  minifyHtmlEnabled := false

/-- Options with a small threshold of 3, webp conversion enabled. -/
def webpOpts : PluginOpts where
  verbose := true
  threshold := some 3
  extensions := []
  svgoEnabled := true
  pngquantEnabled := true
  webpEnabled := true
  minifyHtmlEnabled := false

/-- Options with a small threshold of 10 and HTML minification on. -/
def htmlOpts : PluginOpts where
  verbose := true
  threshold := some 10
  extensions := []
  svgoEnabled := true
  pngquantEnabled := true
  webpEnabled := false
  minifyHtmlEnabled := true

/-- Options with a threshold of 1, everything else defaulted, verbose
on. -/
def smallOpts : PluginOpts where
  verbose := true
  threshold := some 1
  extensions := []
  svgoEnabled := true
  pngquantEnabled := true
  webpEnabled := false
  minifyHtmlEnabled := false

/-- Like `smallOpts` but with `verbose` unset. -/
def quietOpts : PluginOpts where
  verbose := false
  threshold := some 1
  extensions := []
  svgoEnabled := true
  pngquantEnabled := true
  webpEnabled := false
  minifyHtmlEnabled := false

/-- Webp conversion enabled *and* `webp` added to the extension
allowlist — the configuration under which a converted file becomes a
candidate again on the next run. -/
def webpExtOpts : PluginOpts where
  verbose := true
  threshold := some 1
  extensions := ["webp"]
  svgoEnabled := true
  pngquantEnabled := true
  webpEnabled := true
  minifyHtmlEnabled := false

/-- PNG handling fully disabled: webp unset and `pngquant: false`. -/
def pngOffOpts : PluginOpts where
  verbose := true
  threshold := some 1
  extensions := []
  svgoEnabled := true
  pngquantEnabled := false
  webpEnabled := false
  minifyHtmlEnabled := false

/-- Codecs whose brotli black box throws on the byte string `[9, 9]`
only, so that exactly one file of a batch can be made to fail. -/
def oneBadCodecs : Codecs where
  webpEncode _ := .ok [7, 7]
  pngquantEncode c := .ok (c.take 2)
  minifyHtmlFn c := .ok (c ++ c)
  brotliFn c := if c == [9, 9] then .error "brotli failed" else .ok (c.take 1)
  svgoFn c := .ok (c.take 3)

/-- A file body of exactly the default threshold size (1501 bytes). -/
def bigContent : List Nat := List.replicate 1501 7

/-- A file body of exactly one byte less than the default threshold. -/
def smallContent : List Nat := List.replicate 1500 7

/-! ## Helper lemmas -/

lemma appendPath_inj {outRoot a b : String}
    (h : outRoot ++ "/" ++ a = outRoot ++ "/" ++ b) : a = b := by
  have hd := congrArg String.data h
  rw [String.data_append, String.data_append] at hd
  exact String.ext (List.append_cancel_left hd)

lemma endsWithStr_take {s t : String} (h : endsWithStr s t = true) :
    s.data.reverse.take t.data.length = t.data.reverse :=
  eq_of_beq h

lemma not_svg_of_png {s : String} (h : endsWithStr s ".png" = true) :
    endsWithStr s ".svg" = false := by
  by_contra hc
  rw [Bool.not_eq_false] at hc
  have h1 : s.data.reverse.take 4 = ['g', 'n', 'p', '.'] := endsWithStr_take h
  have h2 : s.data.reverse.take 4 = ['g', 'v', 's', '.'] := endsWithStr_take hc
  rw [h1] at h2
  exact absurd h2 (by decide)

lemma not_png_of_svg {s : String} (h : endsWithStr s ".svg" = true) :
    endsWithStr s ".png" = false := by
  by_contra hc
  rw [Bool.not_eq_false] at hc
  exact absurd h (by simp [not_svg_of_png hc])

lemma not_png_of_html {s : String} (h : endsWithStr s ".html" = true) :
    endsWithStr s ".png" = false := by
  by_contra hc
  rw [Bool.not_eq_false] at hc
  have h5 : s.data.reverse.take 5 = ['l', 'm', 't', 'h', '.'] := endsWithStr_take h
  have h4 : s.data.reverse.take 4 = ['g', 'n', 'p', '.'] := endsWithStr_take hc
  have ht : List.take 4 (List.take 5 s.data.reverse) = List.take 4 s.data.reverse := by
    rw [List.take_take]
    norm_num
  rw [h5, h4] at ht
  exact absurd ht (by decide)

lemma not_svg_of_html {s : String} (h : endsWithStr s ".html" = true) :
    endsWithStr s ".svg" = false := by
  by_contra hc
  rw [Bool.not_eq_false] at hc
  have h5 : s.data.reverse.take 5 = ['l', 'm', 't', 'h', '.'] := endsWithStr_take h
  have h4 : s.data.reverse.take 4 = ['g', 'v', 's', '.'] := endsWithStr_take hc
  have ht : List.take 4 (List.take 5 s.data.reverse) = List.take 4 s.data.reverse := by
    rw [List.take_take]
    norm_num
  rw [h5, h4] at ht
  exact absurd ht (by decide)

lemma ends_both {s t1 t2 : String} (h1 : endsWithStr s t1 = true)
    (h2 : endsWithStr s t2 = true) (hle : t1.data.length ≤ t2.data.length) :
    t2.data.reverse.take t1.data.length = t1.data.reverse := by
  have e1 := endsWithStr_take h1
  have e2 := endsWithStr_take h2
  rw [← e2, List.take_take, min_eq_left hle, e1]

lemma extensionTest_webp_false {opts : PluginOpts}
    (hexts : opts.extensions = []) {name : String}
    (h : endsWithStr name ".webp" = true) :
    extensionTest opts name = false := by
  rw [Bool.eq_false_iff]
  intro hc
  obtain ⟨e, he, hee⟩ := List.any_eq_true.mp hc
  simp only [extList, hexts, defaultExts, List.map_nil, List.append_nil,
    List.mem_cons, List.not_mem_nil, or_false] at he
  rcases he with rfl | rfl | rfl | rfl | rfl | rfl
  · exact absurd (ends_both hee h (by decide)) (by decide)
  · exact absurd (ends_both hee h (by decide)) (by decide)
  · exact absurd (ends_both hee h (by decide)) (by decide)
  · exact absurd (ends_both hee h (by decide)) (by decide)
  · exact absurd (ends_both hee h (by decide)) (by decide)
  · exact absurd (ends_both hee h (by decide)) (by decide)

lemma data_append_path (outRoot n : String) :
    (outRoot ++ "/" ++ n).data = (outRoot.data ++ ['/']) ++ n.data := by
  rw [String.data_append, String.data_append]

lemma replacePngWebp_ends (s : String) :
    endsWithStr (replacePngWebp s) ".webp" = true := by
  unfold endsWithStr replacePngWebp
  rw [String.data_append, List.reverse_append,
    show (".webp" : String).data.length =
      (".webp" : String).data.reverse.length from
      (List.length_reverse _).symm,
    List.take_left]
  exact beq_self_eq_true _

lemma png_length_ge {s : String} (h : endsWithStr s ".png" = true) :
    4 ≤ s.data.length := by
  have e := endsWithStr_take h
  have hl : (s.data.reverse.take ((".png" : String).data.length)).length =
      ((".png" : String).data.reverse).length := by rw [e]
  rw [List.length_take, List.length_reverse, List.length_reverse] at hl
  have h4 : (4 : Nat) ⊓ s.data.length = 4 := hl
  omega

lemma replacePngWebp_append (outRoot n : String)
    (h : endsWithStr n ".png" = true) :
    replacePngWebp (outRoot ++ "/" ++ n) =
      outRoot ++ "/" ++ replacePngWebp n := by
  have h4 := png_length_ge h
  apply String.ext
  show (outRoot ++ "/" ++ n).data.take ((outRoot ++ "/" ++ n).data.length - 4)
      ++ (".webp" : String).data =
    (outRoot.data ++ ['/']) ++
      (n.data.take (n.data.length - 4) ++ (".webp" : String).data)
  rw [data_append_path, List.length_append, List.take_append_eq_append_take]
  rw [List.take_of_length_le (by omega :
    (outRoot.data ++ ['/']).length ≤
      (outRoot.data ++ ['/']).length + n.data.length - 4)]
  rw [show (outRoot.data ++ ['/']).length + n.data.length - 4 -
      (outRoot.data ++ ['/']).length = n.data.length - 4 by omega]
  rw [List.append_assoc]

lemma drop_append_path (outRoot m : String) :
    ((outRoot ++ "/" ++ m).data.drop (outRoot.data.length + 1)).asString = m := by
  rw [data_append_path,
    show outRoot.data.length + 1 = (outRoot.data ++ ['/']).length by simp,
    List.drop_left]
  rfl

lemma webp_of_abs {outRoot x pp : String}
    (hw : endsWithStr pp ".webp" = true) (heq : outRoot ++ "/" ++ x = pp) :
    endsWithStr x ".webp" = true := by
  subst heq
  unfold endsWithStr at hw ⊢
  rw [data_append_path, List.reverse_append] at hw
  by_cases hlen : (".webp" : String).data.length ≤ x.data.length
  · rw [List.take_append_of_le_length
      (by rw [List.length_reverse]; exact hlen)] at hw
    exact hw
  · exfalso
    push_neg at hlen
    have hw' := eq_of_beq hw
    have hmem : '/' ∈ (x.data.reverse ++ (outRoot.data ++ ['/']).reverse).take
        ((".webp" : String).data.length) := by
      rw [List.take_append_eq_append_take]
      refine List.mem_append.mpr (Or.inr ?_)
      rw [List.reverse_append]
      show '/' ∈ (['/'] ++ outRoot.data.reverse).take _
      rcases hk : (".webp" : String).data.length - x.data.reverse.length with
        _ | k0
      · rw [List.length_reverse] at hk
        exact absurd hk (by omega)
      · exact List.mem_cons_self _ _
    rw [hw'] at hmem
    exact absurd hmem (by decide)

lemma extensionTest_of_mem {opts : PluginOpts} {name e : String}
    (he : e ∈ extList opts) (h : endsWithStr name ("." ++ e) = true) :
    extensionTest opts name = true :=
  List.any_eq_true.mpr ⟨e, he, h⟩

lemma extensionTest_of_svg (opts : PluginOpts) {name : String}
    (h : endsWithStr name ".svg" = true) : extensionTest opts name = true := by
  refine extensionTest_of_mem (e := "svg") ?_ h
  simp [extList, defaultExts]

lemma extensionTest_of_png (opts : PluginOpts) {name : String}
    (h : endsWithStr name ".png" = true) : extensionTest opts name = true := by
  refine extensionTest_of_mem (e := "png") ?_ h
  simp [extList]

lemma extensionTest_of_html (opts : PluginOpts) {name : String}
    (h : endsWithStr name ".html" = true) : extensionTest opts name = true := by
  refine extensionTest_of_mem (e := "html") ?_ h
  simp [extList, defaultExts]

lemma selectCompressor_fst_of_no_webp {opts : PluginOpts}
    {brexcl : String → Bool} {t s : Nat} {name p : String}
    (h : opts.webpEnabled = false) :
    (selectCompressor opts brexcl t s name p).1 = none := by
  unfold selectCompressor
  dsimp only
  split
  · simp only [h, Bool.false_eq_true, if_false]
    split <;> rfl
  · split
    · rfl
    · split <;> rfl

lemma selectCompressor_fst_of_not_png {opts : PluginOpts}
    {brexcl : String → Bool} {t s : Nat} {name p : String}
    (h : endsWithStr name ".png" = false) :
    (selectCompressor opts brexcl t s name p).1 = none := by
  unfold selectCompressor
  rw [h]
  simp only [Bool.false_eq_true, if_false]
  split
  · rfl
  · split <;> rfl

lemma selectCompressor_fst_some {opts : PluginOpts} {brexcl : String → Bool}
    {t s : Nat} {name p np : String}
    (h : (selectCompressor opts brexcl t s name p).1 = some np) :
    opts.webpEnabled = true ∧ endsWithStr name ".png" = true ∧
      np = replacePngWebp p := by
  by_cases hpng : endsWithStr name ".png" = true
  · by_cases hw : opts.webpEnabled = true
    · refine ⟨hw, hpng, ?_⟩
      unfold selectCompressor at h
      rw [hpng, hw] at h
      simp at h
      exact h.symm
    · have hw' : opts.webpEnabled = false := by
        revert hw
        cases opts.webpEnabled <;> simp
      rw [selectCompressor_fst_of_no_webp hw'] at h
      exact absurd h (by simp)
  · have hpng' : endsWithStr name ".png" = false := by
      revert hpng
      cases endsWithStr name ".png" <;> simp
    rw [selectCompressor_fst_of_not_png hpng'] at h
    exact absurd h (by simp)

lemma runCompressor_htmlC (codecs : Codecs) (t : Nat) (u : Bool)
    (c m : List Nat) (hm : codecs.minifyHtmlFn c = .ok m) :
    runCompressor codecs t (.htmlC u) c =
      if u && decide (t ≤ m.length) then codecs.brotliFn m else .ok m := by
  simp only [runCompressor]
  rw [hm]
  rfl

lemma processFile_excl_skip {opts : PluginOpts} {codecs : Codecs}
    {excl brexcl : String → Bool} {outRoot : String}
    {cache tRec : String → Nat} {f : FsFile}
    (h : excl f.name = true ∨ excl (outRoot ++ "/" ++ f.name) = true) :
    processFile opts codecs excl brexcl outRoot cache tRec f = ⟨[], .ok none⟩ := by
  rcases h with h | h
  · simp [processFile, h]
  · by_cases h1 : (!extensionTest opts f.name || excl f.name) = true
    · simp [processFile, h1]
    · simp [processFile, h1, h]

lemma processFile_stale {opts : PluginOpts} {codecs : Codecs}
    {excl brexcl : String → Bool} {outRoot : String}
    {cache tRec : String → Nat} {f : FsFile}
    (h : f.mtimeMs ≤ cache (outRoot ++ "/" ++ f.name)) :
    processFile opts codecs excl brexcl outRoot cache tRec f = ⟨[], .ok none⟩ := by
  by_cases h1 : (!extensionTest opts f.name || excl f.name) = true
  · simp [processFile, h1]
  · by_cases h2 : excl (outRoot ++ "/" ++ f.name) = true
    · simp [processFile, h1, h2]
    · simp [processFile, h1, h2, h]

lemma processFile_run {opts : PluginOpts} {codecs : Codecs}
    {excl brexcl : String → Bool} {outRoot : String}
    {cache tRec : String → Nat} {f : FsFile}
    (hg1 : extensionTest opts f.name = true)
    (hg2 : excl f.name = false)
    (hg3 : excl (outRoot ++ "/" ++ f.name) = false)
    (hg4 : cache (outRoot ++ "/" ++ f.name) < f.mtimeMs) :
    processFile opts codecs excl brexcl outRoot cache tRec f =
      match decideContent opts codecs brexcl (resolveThreshold opts.threshold)
              f.name (outRoot ++ "/" ++ f.name) f.content,
            (selectCompressor opts brexcl (resolveThreshold opts.threshold)
              f.content.length f.name (outRoot ++ "/" ++ f.name)).1 with
      | .error e, _ => ⟨[], .error e⟩
      | .ok none, _ => ⟨[], .ok none⟩
      | .ok (some c), some np =>
        ⟨[.setCache (outRoot ++ "/" ++ f.name)
            (tRec (outRoot ++ "/" ++ f.name)),
          .unlink (outRoot ++ "/" ++ f.name), .write np c],
         .ok (some (replacePngWebp f.name, mkRatio c.length f.content.length))⟩
      | .ok (some c), none =>
        ⟨[.setCache (outRoot ++ "/" ++ f.name)
            (tRec (outRoot ++ "/" ++ f.name)),
          .write (outRoot ++ "/" ++ f.name) c],
         .ok (some (f.name, mkRatio c.length f.content.length))⟩ := by
  simp [processFile, hg1, hg2, hg3, Nat.not_le.mpr hg4]

/-! ## Claim theorems -/

/-- C4: for every input to the Vector Graphics Pipeline on which the
underlying SVG optimizer throws, `optimizeSvg` returns the original
content unchanged rather than raising an error (its return type is
total: no failure can escape), so a failed vector optimization never
fails the batch. -/
theorem vector_fallback_returns_original (codecs : Codecs)
    (content : List Nat) (e : String) (h : codecs.svgoFn content = .error e) :
    optimizeSvg codecs content = content := by
  simp [optimizeSvg, h]

/-- Witness for C4: the SVGO black box throws on `[60, 61]` and the
pipeline hands back exactly `[60, 61]`. -/
theorem vector_fallback_returns_original_witness :
    svgoFailCodecs.svgoFn [60, 61] = .error "Error in parsing SVG" ∧
    optimizeSvg svgoFailCodecs [60, 61] = [60, 61] :=
  ⟨rfl, vector_fallback_returns_original svgoFailCodecs [60, 61]
    "Error in parsing SVG" rfl⟩

/-- C5: a file whose relative path or whose absolute path matches any
configured exclude pattern is skipped before any pipeline runs — the
task performs no filesystem operation and reports nothing — regardless
of extension, size, options, codecs or cache state; the check is a
disjunction over the relative-path form and the absolute-path form. -/
theorem excluded_file_never_modified (opts : PluginOpts) (codecs : Codecs)
    (excl brexcl : String → Bool) (outRoot : String)
    (cache tRec : String → Nat) (f : FsFile)
    (h : excl f.name = true ∨ excl (outRoot ++ "/" ++ f.name) = true) :
    processFile opts codecs excl brexcl outRoot cache tRec f = ⟨[], .ok none⟩ :=
  processFile_excl_skip h

/-- Witness for C5: a fresh, large `.js` file whose relative path
matches the exclude set is left untouched. -/
theorem excluded_file_never_modified_witness :
    ((fun s => s == "skip.js" : String → Bool) "skip.js" = true ∨
      (fun s => s == "skip.js" : String → Bool) ("out" ++ "/" ++ "skip.js") = true) ∧
    processFile smallOpts okCodecs (fun s => s == "skip.js") noMatch "out"
      zeroCache (constSched 10) ⟨"skip.js", 5, [1, 2, 3, 4]⟩ = ⟨[], .ok none⟩ :=
  ⟨Or.inl rfl,
   excluded_file_never_modified smallOpts okCodecs (fun s => s == "skip.js")
     noMatch "out" zeroCache (constSched 10) ⟨"skip.js", 5, [1, 2, 3, 4]⟩
     (Or.inl rfl)⟩

lemma mkRatio_self {n : Nat} (h : 0 < n) : mkRatio n n = 0 := by
  unfold mkRatio
  rw [div_self (by exact_mod_cast h.ne' : (n : ℚ) ≠ 0)]
  ring

/-- C10: the raster branch and the entropy/markup branch are mutually
exclusive: a `.png` name never selects the brotli or HTML compressor
(for any size, threshold or configuration), a non-`.png` name never
selects a raster compressor, and a `.png` file with both webp and
pngquant disabled is left untouched and absent from the report. -/
theorem png_never_entropy_compressed :
    (∀ (opts : PluginOpts) (brexcl : String → Bool) (t s : Nat) (name p : String),
      endsWithStr name ".png" = true →
      (selectCompressor opts brexcl t s name p).2 ≠ some .brotliC ∧
      ∀ u, (selectCompressor opts brexcl t s name p).2 ≠ some (.htmlC u)) ∧
    (∀ (opts : PluginOpts) (brexcl : String → Bool) (t s : Nat) (name p : String),
      endsWithStr name ".png" = false →
      (selectCompressor opts brexcl t s name p).2 ≠ some .webpC ∧
      (selectCompressor opts brexcl t s name p).2 ≠ some .pngquantC) ∧
    (∀ (opts : PluginOpts) (codecs : Codecs) (excl brexcl : String → Bool)
      (outRoot : String) (cache tRec : String → Nat) (f : FsFile),
      opts.webpEnabled = false → opts.pngquantEnabled = false →
      endsWithStr f.name ".png" = true →
      processFile opts codecs excl brexcl outRoot cache tRec f =
        ⟨[], .ok none⟩) := by
  refine ⟨fun opts brexcl t s name p h => ?_,
          fun opts brexcl t s name p h => ?_,
          fun opts codecs excl brexcl outRoot cache tRec f hw hp h => ?_⟩
  · unfold selectCompressor
    rw [h]
    constructor
    · simp only [if_true]
      split
      · simp
      · split <;> simp
    · intro u
      simp only [if_true]
      split
      · simp
      · split <;> simp
  · unfold selectCompressor
    rw [h]
    simp only [Bool.false_eq_true, if_false]
    constructor
    · split
      · simp
      · split <;> simp
    · split
      · simp
      · split <;> simp
  · have hsel : selectCompressor opts brexcl (resolveThreshold opts.threshold)
        f.content.length f.name (outRoot ++ "/" ++ f.name) = (none, none) := by
      unfold selectCompressor
      rw [h]
      simp [hw, hp]
    have hdc : decideContent opts codecs brexcl (resolveThreshold opts.threshold)
        f.name (outRoot ++ "/" ++ f.name) f.content = .ok none := by
      unfold decideContent
      rw [not_svg_of_png h, hsel]
      simp
    by_cases h1 : (!extensionTest opts f.name || excl f.name) = true
    · simp [processFile, h1]
    · rw [Bool.or_eq_true, not_or] at h1
      obtain ⟨h1a, h1b⟩ := h1
      have h1a' : extensionTest opts f.name = true := by
        revert h1a
        cases extensionTest opts f.name <;> simp
      rw [Bool.not_eq_true] at h1b
      by_cases h2 : excl (outRoot ++ "/" ++ f.name) = true
      · exact processFile_excl_skip (Or.inr h2)
      · rw [Bool.not_eq_true] at h2
        by_cases h3 : f.mtimeMs ≤ cache (outRoot ++ "/" ++ f.name)
        · exact processFile_stale h3
        · rw [processFile_run h1a' h1b h2 (Nat.not_le.mp h3), hdc, hsel]

/-- Witness for C10: a huge `.png` never selects the brotli compressor,
and with webp and pngquant both disabled a fresh `.png` file yields no
filesystem operation and no report entry. -/
theorem png_never_entropy_compressed_witness :
    (selectCompressor defOpts noMatch 1501 99999 "big.png" "out/big.png").2 ≠
      some .brotliC ∧
    processFile pngOffOpts okCodecs noMatch noMatch "out" zeroCache
      (constSched 10) ⟨"big.png", 5, [1, 2, 3]⟩ = ⟨[], .ok none⟩ :=
  ⟨(png_never_entropy_compressed.1 defOpts noMatch 1501 99999 "big.png"
      "out/big.png" (by decide)).1,
   png_never_entropy_compressed.2.2 pngOffOpts okCodecs noMatch noMatch "out"
     zeroCache (constSched 10) ⟨"big.png", 5, [1, 2, 3]⟩ rfl rfl (by decide)⟩

/-- C9: a fresh `.svg` file with vector optimization enabled and not
excluded is always rewritten and reported, for every threshold (the
size threshold plays no role in the SVG branch); when the SVG optimizer
throws, the written content is byte-identical to the original and the
recorded ratio is 0. -/
theorem svg_rewritten_and_reported (opts : PluginOpts) (codecs : Codecs)
    (excl brexcl : String → Bool) (outRoot : String)
    (cache tRec : String → Nat) (f : FsFile)
    (hsvgo : opts.svgoEnabled = true)
    (hsvg : endsWithStr f.name ".svg" = true)
    (hex1 : excl f.name = false)
    (hex2 : excl (outRoot ++ "/" ++ f.name) = false)
    (hfresh : cache (outRoot ++ "/" ++ f.name) < f.mtimeMs) :
    processFile opts codecs excl brexcl outRoot cache tRec f =
      ⟨[.setCache (outRoot ++ "/" ++ f.name) (tRec (outRoot ++ "/" ++ f.name)),
        .write (outRoot ++ "/" ++ f.name) (optimizeSvg codecs f.content)],
       .ok (some (f.name,
         mkRatio (optimizeSvg codecs f.content).length f.content.length))⟩ ∧
    (∀ e, codecs.svgoFn f.content = .error e →
      optimizeSvg codecs f.content = f.content ∧
      (0 < f.content.length →
        mkRatio (optimizeSvg codecs f.content).length f.content.length = 0)) := by
  constructor
  · rw [processFile_run (extensionTest_of_svg opts hsvg) hex1 hex2 hfresh]
    have hdc : decideContent opts codecs brexcl (resolveThreshold opts.threshold)
        f.name (outRoot ++ "/" ++ f.name) f.content =
        .ok (some (optimizeSvg codecs f.content)) := by
      unfold decideContent
      rw [hsvgo, hsvg]
      simp
    rw [hdc, selectCompressor_fst_of_not_png (not_png_of_svg hsvg)]
  · intro e he
    have hopt : optimizeSvg codecs f.content = f.content := by
      simp [optimizeSvg, he]
    refine ⟨hopt, fun hpos => ?_⟩
    rw [hopt]
    exact mkRatio_self hpos

/-- Witness for C9: a fresh 4-byte `.svg` (far below the default 1501
threshold) on which SVGO throws is still rewritten, with its original
bytes and ratio 0. -/
theorem svg_rewritten_and_reported_witness :
    processFile defOpts svgoFailCodecs noMatch noMatch "out" zeroCache
      (constSched 10) ⟨"icon.svg", 5, [1, 2, 3, 4]⟩ =
      ⟨[.setCache "out/icon.svg" 10,
        .write "out/icon.svg" (optimizeSvg svgoFailCodecs [1, 2, 3, 4])],
       .ok (some ("icon.svg",
         mkRatio (optimizeSvg svgoFailCodecs [1, 2, 3, 4]).length 4))⟩ ∧
    optimizeSvg svgoFailCodecs [1, 2, 3, 4] = [1, 2, 3, 4] ∧
    mkRatio (optimizeSvg svgoFailCodecs [1, 2, 3, 4]).length 4 = 0 := by
  have h := svg_rewritten_and_reported defOpts svgoFailCodecs noMatch noMatch
    "out" zeroCache (constSched 10) ⟨"icon.svg", 5, [1, 2, 3, 4]⟩ rfl
    (by decide) rfl rfl (by decide)
  exact ⟨h.1, (h.2 "Error in parsing SVG" rfl).1,
         (h.2 "Error in parsing SVG" rfl).2 (by decide)⟩

/-- C6: for a fresh non-image, non-HTML file with an allowed extension
that is neither excluded nor brotli-excluded, entropy compression is
applied iff the stat size meets the threshold: at or above the
threshold the file is brotli-compressed and written, strictly below it
the task performs no operation at all. -/
theorem threshold_boundary (opts : PluginOpts) (codecs : Codecs)
    (excl brexcl : String → Bool) (outRoot : String)
    (cache tRec : String → Nat) (f : FsFile)
    (hext : extensionTest opts f.name = true)
    (hpng : endsWithStr f.name ".png" = false)
    (hhtml : endsWithStr f.name ".html" = false)
    (hsvg : endsWithStr f.name ".svg" = false)
    (hex1 : excl f.name = false)
    (hex2 : excl (outRoot ++ "/" ++ f.name) = false)
    (hbr1 : brexcl f.name = false)
    (hbr2 : brexcl (outRoot ++ "/" ++ f.name) = false)
    (hfresh : cache (outRoot ++ "/" ++ f.name) < f.mtimeMs) :
    (∀ out, resolveThreshold opts.threshold ≤ f.content.length →
      codecs.brotliFn f.content = .ok out →
      processFile opts codecs excl brexcl outRoot cache tRec f =
        ⟨[.setCache (outRoot ++ "/" ++ f.name)
            (tRec (outRoot ++ "/" ++ f.name)),
          .write (outRoot ++ "/" ++ f.name) out],
         .ok (some (f.name, mkRatio out.length f.content.length))⟩) ∧
    (f.content.length < resolveThreshold opts.threshold →
      processFile opts codecs excl brexcl outRoot cache tRec f =
        ⟨[], .ok none⟩) := by
  have hrun := @processFile_run opts codecs excl brexcl outRoot cache tRec f
    hext hex1 hex2 hfresh
  constructor
  · intro out hge hok
    have hsel : selectCompressor opts brexcl (resolveThreshold opts.threshold)
        f.content.length f.name (outRoot ++ "/" ++ f.name) =
        (none, some .brotliC) := by
      unfold selectCompressor
      rw [hpng]
      simp [hhtml, hbr1, hbr2, hge]
    have hdc : decideContent opts codecs brexcl (resolveThreshold opts.threshold)
        f.name (outRoot ++ "/" ++ f.name) f.content = .ok (some out) := by
      unfold decideContent
      rw [hsvg, hsel]
      simp [runCompressor, hok, Except.map]
    rw [hrun, hdc, hsel]
  · intro hlt
    have hsel : selectCompressor opts brexcl (resolveThreshold opts.threshold)
        f.content.length f.name (outRoot ++ "/" ++ f.name) = (none, none) := by
      unfold selectCompressor
      rw [hpng]
      simp [hhtml, Nat.not_le.mpr hlt]
    have hdc : decideContent opts codecs brexcl (resolveThreshold opts.threshold)
        f.name (outRoot ++ "/" ++ f.name) f.content = .ok none := by
      unfold decideContent
      rw [hsvg, hsel]
      simp
    rw [hrun, hdc, hsel]

/-- Witness for C6 at the default threshold 1501: a 1501-byte `.js`
file is brotli-compressed, a 1500-byte one is never touched. -/
theorem threshold_boundary_witness :
    ((1501 : Nat) ≤ bigContent.length ∧
     processFile defOpts okCodecs noMatch noMatch "out" zeroCache
       (constSched 10) ⟨"a.js", 5, bigContent⟩ =
       ⟨[.setCache "out/a.js" 10, .write "out/a.js" (bigContent.take 1)],
        .ok (some ("a.js",
          mkRatio (bigContent.take 1).length bigContent.length))⟩) ∧
    (smallContent.length < 1501 ∧
     processFile defOpts okCodecs noMatch noMatch "out" zeroCache
       (constSched 10) ⟨"b.js", 5, smallContent⟩ = ⟨[], .ok none⟩) := by
  have hbig : (1501 : Nat) ≤ bigContent.length := by
    unfold bigContent
    rw [List.length_replicate]
  have hsmall : smallContent.length < 1501 := by
    unfold smallContent
    rw [List.length_replicate]
    exact Nat.lt_succ_self 1500
  constructor
  · exact ⟨hbig,
      (threshold_boundary defOpts okCodecs noMatch noMatch "out" zeroCache
        (constSched 10) ⟨"a.js", 5, bigContent⟩ (by decide) (by decide)
        (by decide) (by decide) rfl rfl rfl rfl (by decide)).1
        (bigContent.take 1) hbig rfl⟩
  · exact ⟨hsmall,
      (threshold_boundary defOpts okCodecs noMatch noMatch "out" zeroCache
        (constSched 10) ⟨"b.js", 5, smallContent⟩ (by decide) (by decide)
        (by decide) (by decide) rfl rfl rfl rfl (by decide)).2 hsmall⟩

/-- Counterexample to C7 as stated: a fresh 6-byte `.html` file with
threshold 10, entropy compression enabled (nothing brotli-excluded) and
a minifier whose output (12 bytes) meets the threshold.  The claim says
the minified output must be chained into brotli, but the engine writes
the bare minified bytes: `useBrotli` (plugin.ts line 220) was computed
from the pre-minification stat size 6 < 10.  Chaining would have
produced `[1]` (the brotli black box's output), which is not what was
written. -/
theorem html_chain_pre_size_counterexample :
    processFile htmlOpts okCodecs noMatch noMatch "out" zeroCache
      (constSched 10) ⟨"index.html", 5, [1, 2, 3, 4, 5, 6]⟩ =
      ⟨[.setCache "out/index.html" 10,
        .write "out/index.html" [1, 2, 3, 4, 5, 6, 1, 2, 3, 4, 5, 6]],
       .ok (some ("index.html", mkRatio 12 6))⟩ ∧
    okCodecs.minifyHtmlFn [1, 2, 3, 4, 5, 6] =
      .ok [1, 2, 3, 4, 5, 6, 1, 2, 3, 4, 5, 6] ∧
    resolveThreshold htmlOpts.threshold ≤
      [1, 2, 3, 4, 5, 6, 1, 2, 3, 4, 5, 6].length ∧
    okCodecs.brotliFn [1, 2, 3, 4, 5, 6, 1, 2, 3, 4, 5, 6] = .ok [1] ∧
    ([1, 2, 3, 4, 5, 6, 1, 2, 3, 4, 5, 6] : List Nat) ≠ [1] :=
  ⟨rfl, rfl, by decide, rfl, by decide⟩

/-- C7 amended: the minified HTML output is chained into brotli iff
entropy compression is enabled for the file (not brotli-excluded), the
minified size meets the threshold, *and additionally* the
pre-minification stat size meets the threshold; when any of these
fails, the bare minified bytes are written. -/
theorem html_chain_conditions (opts : PluginOpts) (codecs : Codecs)
    (excl brexcl : String → Bool) (outRoot : String)
    (cache tRec : String → Nat) (f : FsFile) (m : List Nat)
    (hmin : opts.minifyHtmlEnabled = true)
    (hhtml : endsWithStr f.name ".html" = true)
    (hex1 : excl f.name = false)
    (hex2 : excl (outRoot ++ "/" ++ f.name) = false)
    (hfresh : cache (outRoot ++ "/" ++ f.name) < f.mtimeMs)
    (hm : codecs.minifyHtmlFn f.content = .ok m) :
    (resolveThreshold opts.threshold ≤ f.content.length →
      brexcl f.name = false → brexcl (outRoot ++ "/" ++ f.name) = false →
      resolveThreshold opts.threshold ≤ m.length →
      ∀ b, codecs.brotliFn m = .ok b →
      processFile opts codecs excl brexcl outRoot cache tRec f =
        ⟨[.setCache (outRoot ++ "/" ++ f.name)
            (tRec (outRoot ++ "/" ++ f.name)),
          .write (outRoot ++ "/" ++ f.name) b],
         .ok (some (f.name, mkRatio b.length f.content.length))⟩) ∧
    (¬(resolveThreshold opts.threshold ≤ f.content.length ∧
        brexcl f.name = false ∧
        brexcl (outRoot ++ "/" ++ f.name) = false ∧
        resolveThreshold opts.threshold ≤ m.length) →
      processFile opts codecs excl brexcl outRoot cache tRec f =
        ⟨[.setCache (outRoot ++ "/" ++ f.name)
            (tRec (outRoot ++ "/" ++ f.name)),
          .write (outRoot ++ "/" ++ f.name) m],
         .ok (some (f.name, mkRatio m.length f.content.length))⟩) := by
  have hpng := not_png_of_html hhtml
  have hsvg := not_svg_of_html hhtml
  have hrun := @processFile_run opts codecs excl brexcl outRoot cache tRec f
    (extensionTest_of_html opts hhtml) hex1 hex2 hfresh
  have hsel : selectCompressor opts brexcl (resolveThreshold opts.threshold)
      f.content.length f.name (outRoot ++ "/" ++ f.name) =
      (none, some (.htmlC (decide (resolveThreshold opts.threshold ≤
          f.content.length) && !brexcl f.name &&
          !brexcl (outRoot ++ "/" ++ f.name)))) := by
    unfold selectCompressor
    rw [hpng]
    simp [hmin, hhtml]
  constructor
  · intro hpre hb1 hb2 hmlen b hb
    have hcond : (decide (resolveThreshold opts.threshold ≤ f.content.length) &&
        !brexcl f.name && !brexcl (outRoot ++ "/" ++ f.name) &&
        decide (resolveThreshold opts.threshold ≤ m.length)) = true := by
      simp [hpre, hb1, hb2, hmlen]
    have hrc : runCompressor codecs (resolveThreshold opts.threshold)
        (.htmlC (decide (resolveThreshold opts.threshold ≤ f.content.length) &&
          !brexcl f.name && !brexcl (outRoot ++ "/" ++ f.name)))
        f.content = .ok b := by
      rw [runCompressor_htmlC codecs _ _ _ m hm, hcond, if_pos rfl]
      exact hb
    have hdc : decideContent opts codecs brexcl (resolveThreshold opts.threshold)
        f.name (outRoot ++ "/" ++ f.name) f.content = .ok (some b) := by
      unfold decideContent
      rw [hsvg, hsel]
      simp [hrc, Except.map]
    rw [hrun, hdc, hsel]
  · intro hneg
    have hfalse : (decide (resolveThreshold opts.threshold ≤ f.content.length) &&
        !brexcl f.name && !brexcl (outRoot ++ "/" ++ f.name) &&
        decide (resolveThreshold opts.threshold ≤ m.length)) = false := by
      by_contra hx
      rw [Bool.not_eq_false] at hx
      simp only [Bool.and_eq_true, decide_eq_true_eq, Bool.not_eq_true'] at hx
      exact hneg ⟨hx.1.1.1, hx.1.1.2, hx.1.2, hx.2⟩
    have hrc : runCompressor codecs (resolveThreshold opts.threshold)
        (.htmlC (decide (resolveThreshold opts.threshold ≤ f.content.length) &&
          !brexcl f.name && !brexcl (outRoot ++ "/" ++ f.name)))
        f.content = .ok m := by
      rw [runCompressor_htmlC codecs _ _ _ m hm, hfalse]
      simp
    have hdc : decideContent opts codecs brexcl (resolveThreshold opts.threshold)
        f.name (outRoot ++ "/" ++ f.name) f.content = .ok (some m) := by
      unfold decideContent
      rw [hsvg, hsel]
      simp [hrc, Except.map]
    rw [hrun, hdc, hsel]

/-- Witness for the amended C7: with threshold 10, a fresh 12-byte
`.html` file whose minified form is 24 bytes is chained into brotli,
and the brotli output is what lands on disk. -/
theorem html_chain_conditions_witness :
    processFile htmlOpts okCodecs noMatch noMatch "out" zeroCache
      (constSched 10)
      ⟨"big.html", 5, [1, 2, 3, 4, 5, 6, 7, 8, 9, 10, 11, 12]⟩ =
      ⟨[.setCache "out/big.html" 10, .write "out/big.html" [1]],
       .ok (some ("big.html", mkRatio 1 12))⟩ := by
  have h := (html_chain_conditions htmlOpts okCodecs noMatch noMatch "out"
    zeroCache (constSched 10)
    ⟨"big.html", 5, [1, 2, 3, 4, 5, 6, 7, 8, 9, 10, 11, 12]⟩
    ([1, 2, 3, 4, 5, 6, 7, 8, 9, 10, 11, 12] ++
      [1, 2, 3, 4, 5, 6, 7, 8, 9, 10, 11, 12])
    rfl (by decide) rfl rfl (by decide) rfl).1
    (by decide) rfl rfl (by decide) [1] rfl
  exact h

/-- Counterexample to C2 as stated: with webp conversion enabled and a
succeeding encoder, the per-file trace is `mtimeCache.set`, then
`unlink` of the original `.png`, then `write` of the `.webp` — the
original is deleted *before* the new-extension file is written
(plugin.ts lines 265-269), so "deleted only after the new file has been
successfully written" fails on this trace. -/
theorem webp_unlink_before_write_counterexample :
    (processFile webpOpts okCodecs noMatch noMatch "out" zeroCache
      (constSched 10) ⟨"img.png", 5, [1, 2, 3]⟩).ops =
      [.setCache "out/img.png" 10, .unlink "out/img.png",
       .write "out/img.webp" [7, 7]] ∧
    unlinkAfterNewWrite "out/img.png" "out/img.webp"
      [.setCache "out/img.png" 10, .unlink "out/img.png",
       .write "out/img.webp" [7, 7]] = false :=
  ⟨rfl, rfl⟩

/-- C2 amended: with webp conversion enabled, the original `.png` is
deleted only after the conversion has successfully produced the new
content in memory, but the `unlink` of the original is awaited
immediately *before* the `write` of the new-extension file; if the
conversion step fails, the task performs no filesystem operation at all
(original untouched, no new file). -/
theorem webp_conversion_effects (opts : PluginOpts) (codecs : Codecs)
    (excl brexcl : String → Bool) (outRoot : String)
    (cache tRec : String → Nat) (f : FsFile)
    (hwebp : opts.webpEnabled = true)
    (hpng : endsWithStr f.name ".png" = true)
    (hex1 : excl f.name = false)
    (hex2 : excl (outRoot ++ "/" ++ f.name) = false)
    (hfresh : cache (outRoot ++ "/" ++ f.name) < f.mtimeMs) :
    (∀ out, codecs.webpEncode f.content = .ok out →
      processFile opts codecs excl brexcl outRoot cache tRec f =
        ⟨[.setCache (outRoot ++ "/" ++ f.name)
            (tRec (outRoot ++ "/" ++ f.name)),
          .unlink (outRoot ++ "/" ++ f.name),
          .write (replacePngWebp (outRoot ++ "/" ++ f.name)) out],
         .ok (some (replacePngWebp f.name,
           mkRatio out.length f.content.length))⟩) ∧
    (∀ e, codecs.webpEncode f.content = .error e →
      processFile opts codecs excl brexcl outRoot cache tRec f =
        ⟨[], .error e⟩) := by
  have hsvg := not_svg_of_png hpng
  have hrun := @processFile_run opts codecs excl brexcl outRoot cache tRec f
    (extensionTest_of_png opts hpng) hex1 hex2 hfresh
  have hsel : selectCompressor opts brexcl (resolveThreshold opts.threshold)
      f.content.length f.name (outRoot ++ "/" ++ f.name) =
      (some (replacePngWebp (outRoot ++ "/" ++ f.name)), some .webpC) := by
    unfold selectCompressor
    rw [hpng]
    simp [hwebp]
  constructor
  · intro out hok
    have hdc : decideContent opts codecs brexcl (resolveThreshold opts.threshold)
        f.name (outRoot ++ "/" ++ f.name) f.content = .ok (some out) := by
      unfold decideContent
      rw [hsvg, hsel]
      simp [runCompressor, hok, Except.map]
    rw [hrun, hdc, hsel]
  · intro e herr
    have hdc : decideContent opts codecs brexcl (resolveThreshold opts.threshold)
        f.name (outRoot ++ "/" ++ f.name) f.content = .error e := by
      unfold decideContent
      rw [hsvg, hsel]
      simp [runCompressor, herr, Except.map]
    rw [hrun, hdc]

/-- Witness for the amended C2: a fresh `.png` with a succeeding webp
encoder produces exactly the set-cache / unlink / write trace and the
renamed report entry; with a throwing encoder the task rejects with no
filesystem operation. -/
theorem webp_conversion_effects_witness :
    processFile webpOpts okCodecs noMatch noMatch "out" zeroCache
      (constSched 10) ⟨"img.png", 5, [1, 2, 3]⟩ =
      ⟨[.setCache "out/img.png" 10, .unlink "out/img.png",
        .write "out/img.webp" [7, 7]],
       .ok (some ("img.webp", mkRatio 2 3))⟩ ∧
    processFile webpOpts failCodecs noMatch noMatch "out" zeroCache
      (constSched 10) ⟨"img.png", 5, [1, 2, 3]⟩ =
      ⟨[], .error "webp failed"⟩ :=
  ⟨(webp_conversion_effects webpOpts okCodecs noMatch noMatch "out" zeroCache
      (constSched 10) ⟨"img.png", 5, [1, 2, 3]⟩ rfl (by decide) rfl rfl
      (by decide)).1 [7, 7] rfl,
   (webp_conversion_effects webpOpts failCodecs noMatch noMatch "out" zeroCache
      (constSched 10) ⟨"img.png", 5, [1, 2, 3]⟩ rfl (by decide) rfl rfl
      (by decide)).2 "webp failed" rfl⟩

lemma processFile_shape (opts : PluginOpts) (codecs : Codecs)
    (excl brexcl : String → Bool) (outRoot : String)
    (cache tRec : String → Nat) (f : FsFile) :
    processFile opts codecs excl brexcl outRoot cache tRec f = ⟨[], .ok none⟩ ∨
    (∃ e, processFile opts codecs excl brexcl outRoot cache tRec f =
      ⟨[], .error e⟩) ∨
    (∃ c, processFile opts codecs excl brexcl outRoot cache tRec f =
      ⟨[.setCache (outRoot ++ "/" ++ f.name) (tRec (outRoot ++ "/" ++ f.name)),
        .write (outRoot ++ "/" ++ f.name) c],
       .ok (some (f.name, mkRatio c.length f.content.length))⟩) ∨
    (opts.webpEnabled = true ∧ endsWithStr f.name ".png" = true ∧
      ∃ c, processFile opts codecs excl brexcl outRoot cache tRec f =
        ⟨[.setCache (outRoot ++ "/" ++ f.name)
            (tRec (outRoot ++ "/" ++ f.name)),
          .unlink (outRoot ++ "/" ++ f.name),
          .write (replacePngWebp (outRoot ++ "/" ++ f.name)) c],
         .ok (some (replacePngWebp f.name,
           mkRatio c.length f.content.length))⟩) := by
  unfold processFile
  dsimp only
  split
  · exact Or.inl rfl
  · split
    · exact Or.inl rfl
    · split
      · exact Or.inl rfl
      · split
        · exact Or.inr (Or.inl ⟨_, rfl⟩)
        · exact Or.inl rfl
        · rename_i c np hdc hsome
          obtain ⟨hw, hpng, hnp⟩ := selectCompressor_fst_some hsome
          subst hnp
          exact Or.inr (Or.inr (Or.inr ⟨hw, hpng, c, rfl⟩))
        · exact Or.inr (Or.inr (Or.inl ⟨_, rfl⟩))

/-- Counterexample to C3 as stated: a two-file batch in which exactly
one task's pipeline throws.  The per-file tasks have no catch
(plugin.ts lines 187-274), so the rejection propagates through
`Promise.all`: the run is marked failed, the verbose report block never
runs (no log lines despite `verbose: true`), instead of the claimed
"N−1 successful reports".  The healthy file's write still happened. -/
theorem batch_failure_not_absorbed_counterexample :
    (runClose smallOpts oneBadCodecs noMatch noMatch "out" "dist" zeroCache
      (constSched 10) (constSched 11)
      [⟨"a.js", 5, [1, 2]⟩, ⟨"b.js", 5, [9, 9]⟩]).failed = true ∧
    smallOpts.verbose = true ∧
    (runClose smallOpts oneBadCodecs noMatch noMatch "out" "dist" zeroCache
      (constSched 10) (constSched 11)
      [⟨"a.js", 5, [1, 2]⟩, ⟨"b.js", 5, [9, 9]⟩]).logs = [] ∧
    (runClose smallOpts oneBadCodecs noMatch noMatch "out" "dist" zeroCache
      (constSched 10) (constSched 11)
      [⟨"a.js", 5, [1, 2]⟩, ⟨"b.js", 5, [9, 9]⟩]).ops =
      [.setCache "out/a.js" 10, .write "out/a.js" [1]] :=
  ⟨rfl, rfl, rfl, rfl⟩

/-- C3 amended: a pipeline or I/O failure in one file's task is *not*
absorbed: the rejection propagates through the batch `await`, marking
the whole run failed and suppressing the report (no log lines are
emitted even in verbose mode), while the effects already performed by
the other concurrently running tasks still take place. -/
theorem batch_failure_aborts_report (opts : PluginOpts) (codecs : Codecs)
    (excl brexcl : String → Bool) (outRoot outDirRel : String)
    (cache tRec tWr : String → Nat) (fs : List FsFile) (f : FsFile) (e : String)
    (hf : f ∈ fs)
    (herr : (processFile opts codecs excl brexcl outRoot cache tRec f).outcome =
      .error e) :
    (runClose opts codecs excl brexcl outRoot outDirRel cache tRec tWr fs).failed =
      true ∧
    (runClose opts codecs excl brexcl outRoot outDirRel cache tRec tWr fs).logs =
      [] ∧
    (∀ g ∈ fs, ∀ op ∈ (processFile opts codecs excl brexcl outRoot cache tRec g).ops,
      op ∈ (runClose opts codecs excl brexcl outRoot outDirRel cache tRec tWr fs).ops) := by
  have hfailed : (runClose opts codecs excl brexcl outRoot outDirRel cache
      tRec tWr fs).failed = true := by
    unfold runClose
    refine List.any_eq_true.mpr ?_
    refine ⟨processFile opts codecs excl brexcl outRoot cache tRec f,
      List.mem_map_of_mem _ hf, ?_⟩
    rw [herr]
  refine ⟨hfailed, ?_, ?_⟩
  · unfold runClose at hfailed ⊢
    simp only at hfailed
    simp [hfailed]
  · intro g hg op hop
    unfold runClose
    simp only
    refine List.mem_flatten.mpr ?_
    refine ⟨(processFile opts codecs excl brexcl outRoot cache tRec g).ops, ?_, hop⟩
    exact List.mem_map_of_mem _ (List.mem_map_of_mem _ hg)

/-- Witness for the amended C3: in the two-file batch with one failing
task, the run is failed, no log lines appear, and the healthy file's
write operation is still among the batch effects. -/
theorem batch_failure_aborts_report_witness :
    (runClose smallOpts oneBadCodecs noMatch noMatch "out" "dist" zeroCache
      (constSched 10) (constSched 11)
      [⟨"a.js", 5, [1, 2]⟩, ⟨"b.js", 5, [9, 9]⟩]).failed = true ∧
    (runClose smallOpts oneBadCodecs noMatch noMatch "out" "dist" zeroCache
      (constSched 10) (constSched 11)
      [⟨"a.js", 5, [1, 2]⟩, ⟨"b.js", 5, [9, 9]⟩]).logs = [] ∧
    FsOp.write "out/a.js" [1] ∈
      (runClose smallOpts oneBadCodecs noMatch noMatch "out" "dist" zeroCache
        (constSched 10) (constSched 11)
        [⟨"a.js", 5, [1, 2]⟩, ⟨"b.js", 5, [9, 9]⟩]).ops := by
  have h := batch_failure_aborts_report smallOpts oneBadCodecs noMatch noMatch
    "out" "dist" zeroCache (constSched 10) (constSched 11)
    [⟨"a.js", 5, [1, 2]⟩, ⟨"b.js", 5, [9, 9]⟩] ⟨"b.js", 5, [9, 9]⟩
    "brotli failed" (by decide) rfl
  refine ⟨h.1, h.2.1, ?_⟩
  exact h.2.2 ⟨"a.js", 5, [1, 2]⟩ (by decide) (.write "out/a.js" [1]) (by decide)

/-- C8: every recorded compression ratio is `1 − bytesAfter/bytesBefore`
for the content actually written; a 1000-byte file shrinking to 400
bytes yields the ratio `3/5`, printed (floored times 100) as
`60% smaller`; and the report lines are emitted only when `verbose` is
set. -/
theorem report_ratio_and_verbose_gating :
    (∀ (opts : PluginOpts) (codecs : Codecs) (excl brexcl : String → Bool)
        (outRoot : String) (cache tRec : String → Nat) (f : FsFile)
        (n : String) (r : ℚ),
      (processFile opts codecs excl brexcl outRoot cache tRec f).outcome =
        .ok (some (n, r)) →
      ∃ p c, FsOp.write p c ∈
          (processFile opts codecs excl brexcl outRoot cache tRec f).ops ∧
        r = mkRatio c.length f.content.length) ∧
    mkRatio 400 1000 = 3 / 5 ∧
    percentSmaller (mkRatio 400 1000) = 60 ∧
    formatLine "dist" 5 ("a.css", mkRatio 400 1000) =
      "  dist/a.css  60% smaller" ∧
    (∀ (opts : PluginOpts) (codecs : Codecs) (excl brexcl : String → Bool)
        (outRoot outDirRel : String) (cache tRec tWr : String → Nat)
        (fs : List FsFile), opts.verbose = false →
      (runClose opts codecs excl brexcl outRoot outDirRel cache tRec tWr
        fs).logs = []) := by
  refine ⟨?_, ?_, ?_, ?_, ?_⟩
  · intro opts codecs excl brexcl outRoot cache tRec f n r hr
    rcases processFile_shape opts codecs excl brexcl outRoot cache tRec f with
      h | ⟨e, h⟩ | ⟨c, h⟩ | ⟨hw, hpng, c, h⟩ <;> rw [h] at hr ⊢
    · exact absurd hr (by simp)
    · exact absurd hr (by simp)
    · simp only [Except.ok.injEq, Option.some.injEq, Prod.mk.injEq] at hr
      exact ⟨outRoot ++ "/" ++ f.name, c, by simp, hr.2.symm⟩
    · simp only [Except.ok.injEq, Option.some.injEq, Prod.mk.injEq] at hr
      exact ⟨replacePngWebp (outRoot ++ "/" ++ f.name), c, by simp, hr.2.symm⟩
  · norm_num [mkRatio]
  · norm_num [percentSmaller, mkRatio]
  · have hp : percentSmaller (mkRatio 400 1000) = 60 := by
      norm_num [percentSmaller, mkRatio]
    unfold formatLine
    dsimp only
    rw [hp]
    decide
  · intro opts codecs excl brexcl outRoot outDirRel cache tRec tWr fs hv
    unfold runClose
    dsimp only
    split
    · rfl
    · simp [reportLogs, hv]

/-- Witness for C8: a 2-byte `.js` file written as 1 byte has its
recorded ratio traceable to the written content, and a quiet run emits
no log lines. -/
theorem report_ratio_and_verbose_gating_witness :
    (∃ p c, FsOp.write p c ∈
        (processFile smallOpts okCodecs noMatch noMatch "out" zeroCache
          (constSched 10) ⟨"a.js", 5, [3, 4]⟩).ops ∧
      mkRatio 1 2 = mkRatio c.length ([3, 4] : List Nat).length) ∧
    (runClose quietOpts okCodecs noMatch noMatch "out" "dist" zeroCache
      (constSched 10) (constSched 11) [⟨"a.js", 5, [3, 4]⟩]).logs = [] :=
  ⟨report_ratio_and_verbose_gating.1 smallOpts okCodecs noMatch noMatch "out"
    zeroCache (constSched 10) ⟨"a.js", 5, [3, 4]⟩ "a.js" (mkRatio 1 2) rfl,
   report_ratio_and_verbose_gating.2.2.2.2 quietOpts okCodecs noMatch noMatch
    "out" "dist" zeroCache (constSched 10) (constSched 11)
    [⟨"a.js", 5, [3, 4]⟩] rfl⟩

section RunTwice

variable {opts : PluginOpts} {codecs : Codecs} {excl brexcl : String → Bool}
  {outRoot : String} {cache tRec tWr : String → Nat}

lemma setCache_path_own (f : FsFile) (pp : String) (t0 : Nat)
    (hop : FsOp.setCache pp t0 ∈
      (processFile opts codecs excl brexcl outRoot cache tRec f).ops) :
    pp = outRoot ++ "/" ++ f.name := by
  rcases processFile_shape opts codecs excl brexcl outRoot cache tRec f with
    h | ⟨e, h⟩ | ⟨c, h⟩ | ⟨hw, hpng, c, h⟩ <;> rw [h] at hop <;> simp at hop
  · exact hop.1
  · exact hop.1

lemma foldl_cache_untouched (l : List FsOp) (c0 : String → Nat) (q : String)
    (h : ∀ pp t0, FsOp.setCache pp t0 ∈ l → pp ≠ q) :
    l.foldl applyOpCache c0 q = c0 q := by
  induction l generalizing c0 with
  | nil => rfl
  | cons op rest ih =>
    rw [List.foldl_cons,
      ih _ (fun pp t0 hpp => h pp t0 (List.mem_cons_of_mem _ hpp))]
    cases op with
    | setCache pp t0 =>
      have hne : pp ≠ q := h pp t0 (List.mem_cons_self _ _)
      exact if_neg (fun hq => hne hq.symm)
    | unlink pp => rfl
    | write pp c => rfl

lemma foldl_cache_flatten_untouched (l : List FsFile) (c0 : String → Nat)
    (q : String) (h : ∀ g ∈ l, outRoot ++ "/" ++ g.name ≠ q) :
    ((l.map (fun g =>
        (processFile opts codecs excl brexcl outRoot cache tRec g).ops)).flatten).foldl
      applyOpCache c0 q = c0 q := by
  apply foldl_cache_untouched
  intro pp t0 hop
  rcases List.mem_flatten.mp hop with ⟨ops, hops, hopin⟩
  rcases List.mem_map.mp hops with ⟨g, hg, rfl⟩
  rw [setCache_path_own g pp t0 hopin]
  exact h g hg

lemma gate1_false {opts : PluginOpts} {excl : String → Bool} {name : String}
    (h : ¬(!extensionTest opts name || excl name) = true) :
    extensionTest opts name = true ∧ excl name = false := by
  rw [Bool.or_eq_true, not_or] at h
  obtain ⟨ha, hb⟩ := h
  constructor
  · revert ha
    cases extensionTest opts name <;> simp
  · revert hb
    cases excl name <;> simp

lemma processFile_noext (f : FsFile)
    (h : extensionTest opts f.name = false) :
    processFile opts codecs excl brexcl outRoot cache tRec f =
      ⟨[], .ok none⟩ := by
  simp [processFile, h]

lemma processFile_ops_nil_iff (f : FsFile) :
    (processFile opts codecs excl brexcl outRoot cache tRec f).ops = [] ↔
    ((!extensionTest opts f.name || excl f.name) = true ∨
      excl (outRoot ++ "/" ++ f.name) = true ∨
      f.mtimeMs ≤ cache (outRoot ++ "/" ++ f.name) ∨
      decideContent opts codecs brexcl (resolveThreshold opts.threshold) f.name
        (outRoot ++ "/" ++ f.name) f.content = .ok none ∨
      ∃ e, decideContent opts codecs brexcl (resolveThreshold opts.threshold)
        f.name (outRoot ++ "/" ++ f.name) f.content = .error e) := by
  by_cases h1 : (!extensionTest opts f.name || excl f.name) = true
  · simp [processFile, h1]
  · obtain ⟨hext, hexcl⟩ := gate1_false h1
    by_cases h2 : excl (outRoot ++ "/" ++ f.name) = true
    · simp [processFile_excl_skip (Or.inr h2), h1, h2]
    · by_cases h3 : f.mtimeMs ≤ cache (outRoot ++ "/" ++ f.name)
      · rw [processFile_stale h3]
        simp [h1, h2, h3]
      · rw [processFile_run hext hexcl
          (by revert h2; cases excl (outRoot ++ "/" ++ f.name) <;> simp)
          (Nat.not_le.mp h3)]
        rcases hdc : decideContent opts codecs brexcl
            (resolveThreshold opts.threshold) f.name
            (outRoot ++ "/" ++ f.name) f.content with e | v
        · simp [h1, h2, h3, hdc]
        · cases v with
          | none => simp [h1, h2, h3, hdc]
          | some c =>
            rcases hsel : (selectCompressor opts brexcl
                (resolveThreshold opts.threshold) f.content.length f.name
                (outRoot ++ "/" ++ f.name)).1 with _ | np
            · simp [h1, h2, h3, hdc, hsel]
            · simp [h1, h2, h3, hdc, hsel]

lemma processFile_ops_nil_stable (cache₂ tRec₂ : String → Nat) (f : FsFile)
    (hc : cache₂ (outRoot ++ "/" ++ f.name) = cache (outRoot ++ "/" ++ f.name))
    (h : (processFile opts codecs excl brexcl outRoot cache tRec f).ops = []) :
    (processFile opts codecs excl brexcl outRoot cache₂ tRec₂ f).ops = [] := by
  rw [processFile_ops_nil_iff] at h ⊢
  rw [hc]
  exact h

lemma runClose_ops_eq (outDirRel : String) (fs : List FsFile) :
    (runClose opts codecs excl brexcl outRoot outDirRel cache tRec tWr fs).ops =
      (fs.map (fun g =>
        (processFile opts codecs excl brexcl outRoot cache tRec g).ops)).flatten := by
  unfold runClose
  dsimp only
  rw [List.map_map]
  rfl

lemma runClose_cacheAfter_eq (outDirRel : String) (fs : List FsFile) :
    (runClose opts codecs excl brexcl outRoot outDirRel cache tRec tWr
      fs).cacheAfter =
    ((fs.map (fun g =>
        (processFile opts codecs excl brexcl outRoot cache tRec g).ops)).flatten).foldl
      applyOpCache cache := by
  unfold runClose
  dsimp only
  rw [List.map_map]
  rfl

lemma runClose_fsAfter_raw (outDirRel : String) (fs : List FsFile) :
    (runClose opts codecs excl brexcl outRoot outDirRel cache tRec tWr
      fs).fsAfter =
    ((fs.map (fun g =>
        (processFile opts codecs excl brexcl outRoot cache tRec g).ops)).flatten).foldl
      (applyOpFs outRoot tWr) fs := by
  unfold runClose
  dsimp only
  rw [List.map_map]
  rfl

lemma runClose_fsAfter_blocks (outDirRel : String) (fs : List FsFile) :
    (runClose opts codecs excl brexcl outRoot outDirRel cache tRec tWr
      fs).fsAfter =
    fs.foldl (fun st g =>
      (processFile opts codecs excl brexcl outRoot cache tRec g).ops.foldl
        (applyOpFs outRoot tWr) st) fs := by
  rw [runClose_fsAfter_raw, List.foldl_flatten, List.foldl_map]

lemma runClose_cacheAfter_at (outDirRel : String) (s t : List FsFile)
    (f : FsFile) (hs : ∀ g ∈ s, g.name ≠ f.name)
    (ht : ∀ g ∈ t, g.name ≠ f.name) :
    (runClose opts codecs excl brexcl outRoot outDirRel cache tRec tWr
        (s ++ f :: t)).cacheAfter (outRoot ++ "/" ++ f.name) =
    (processFile opts codecs excl brexcl outRoot cache tRec f).ops.foldl
      applyOpCache cache (outRoot ++ "/" ++ f.name) := by
  have hps : ∀ g ∈ s, outRoot ++ "/" ++ g.name ≠ outRoot ++ "/" ++ f.name :=
    fun g hg heq => hs g hg (appendPath_inj heq)
  have hpt : ∀ g ∈ t, outRoot ++ "/" ++ g.name ≠ outRoot ++ "/" ++ f.name :=
    fun g hg heq => ht g hg (appendPath_inj heq)
  rw [runClose_cacheAfter_eq, List.map_append, List.map_cons,
    List.flatten_append, List.flatten_cons, List.foldl_append,
    List.foldl_append]
  rw [foldl_cache_flatten_untouched t _ _ hpt]
  rcases processFile_shape opts codecs excl brexcl outRoot cache tRec f with
    h | ⟨e, h⟩ | ⟨c, h⟩ | ⟨hw, hpng, c, h⟩ <;> rw [h]
  · exact foldl_cache_flatten_untouched s cache _ hps
  · exact foldl_cache_flatten_untouched s cache _ hps
  · simp only [List.foldl_cons, List.foldl_nil]
    simp [applyOpCache]
  · simp only [List.foldl_cons, List.foldl_nil]
    simp [applyOpCache]

lemma fsInv_shrink {fs rest state : List FsFile} {h : FsFile}
    (hops : (processFile opts codecs excl brexcl outRoot cache tRec h).ops = [])
    (hinv : fsInv opts codecs excl brexcl outRoot cache tRec tWr fs
      (h :: rest) state) :
    fsInv opts codecs excl brexcl outRoot cache tRec tWr fs rest state := by
  intro x hx
  rcases hinv x hx with ⟨g, hgfs, hxg, hcase⟩ | h2 | h3
  · refine Or.inl ⟨g, hgfs, hxg, ?_⟩
    rcases hcase with hnil | htodo
    · exact Or.inl hnil
    · rcases List.mem_cons.mp htodo with rfl | hr
      · exact Or.inl hops
      · exact Or.inr hr
  · exact Or.inr (Or.inl h2)
  · exact Or.inr (Or.inr h3)

lemma fold_blocks_inv (fs : List FsFile) (todo : List FsFile)
    (state : List FsFile) (hsub : ∀ g ∈ todo, g ∈ fs)
    (hinv : fsInv opts codecs excl brexcl outRoot cache tRec tWr fs todo
      state) :
    fsInv opts codecs excl brexcl outRoot cache tRec tWr fs []
      (todo.foldl (fun st g =>
        (processFile opts codecs excl brexcl outRoot cache tRec g).ops.foldl
          (applyOpFs outRoot tWr) st) state) := by
  induction todo generalizing state with
  | nil => exact hinv
  | cons h rest ih =>
    rw [List.foldl_cons]
    refine ih _ (fun g hg => hsub g (List.mem_cons_of_mem _ hg)) ?_
    rcases processFile_shape opts codecs excl brexcl outRoot cache tRec h with
      hsh | ⟨e, hsh⟩ | ⟨c, hsh⟩ | ⟨hw, hpng, c, hsh⟩
    · rw [hsh, List.foldl_nil]
      exact fsInv_shrink (by rw [hsh]) hinv
    · rw [hsh, List.foldl_nil]
      exact fsInv_shrink (by rw [hsh]) hinv
    · -- in-place write
      rw [hsh]
      simp only [List.foldl_cons, List.foldl_nil, applyOpFs]
      by_cases hany : (state.any fun g =>
          outRoot ++ "/" ++ g.name == outRoot ++ "/" ++ h.name) = true
      · rw [if_pos hany]
        intro y hy
        obtain ⟨x, hx, rfl⟩ := List.mem_map.mp hy
        by_cases hm : (outRoot ++ "/" ++ x.name ==
            outRoot ++ "/" ++ h.name) = true
        · rw [if_pos hm]
          have hxn : x.name = h.name := appendPath_inj (eq_of_beq hm)
          refine Or.inr (Or.inl ⟨h, c, hsub h (List.mem_cons_self _ _),
            by rw [hsh], ?_⟩)
          rw [hxn]
        · rw [if_neg hm]
          rcases hinv x hx with ⟨g, hgfs, hxg, hcase⟩ | h2 | h3
          · refine Or.inl ⟨g, hgfs, hxg, ?_⟩
            rcases hcase with hnil | htodo
            · exact Or.inl hnil
            · rcases List.mem_cons.mp htodo with rfl | hr
              · exact absurd (by rw [hxg]; exact beq_self_eq_true _) hm
              · exact Or.inr hr
          · exact Or.inr (Or.inl h2)
          · exact Or.inr (Or.inr h3)
      · rw [if_neg hany]
        intro y hy
        rcases List.mem_append.mp hy with hys | hnew
        · rcases hinv y hys with ⟨g, hgfs, hxg, hcase⟩ | h2 | h3
          · refine Or.inl ⟨g, hgfs, hxg, ?_⟩
            rcases hcase with hnil | htodo
            · exact Or.inl hnil
            · rcases List.mem_cons.mp htodo with rfl | hr
              · exact absurd (List.any_eq_true.mpr
                  ⟨y, hys, by rw [hxg]; exact beq_self_eq_true _⟩) hany
              · exact Or.inr hr
          · exact Or.inr (Or.inl h2)
          · exact Or.inr (Or.inr h3)
        · rw [List.mem_singleton.mp hnew]
          refine Or.inr (Or.inl ⟨h, c, hsub h (List.mem_cons_self _ _),
            by rw [hsh], ?_⟩)
          rw [drop_append_path]
    · -- rename write
      rw [hsh]
      simp only [List.foldl_cons, List.foldl_nil, applyOpFs]
      have hnp : replacePngWebp (outRoot ++ "/" ++ h.name) =
          outRoot ++ "/" ++ replacePngWebp h.name :=
        replacePngWebp_append outRoot h.name hpng
      have hnpw : endsWithStr (replacePngWebp (outRoot ++ "/" ++ h.name))
          ".webp" = true := replacePngWebp_ends _
      by_cases hany : ((state.filter fun g =>
          !(outRoot ++ "/" ++ g.name == outRoot ++ "/" ++ h.name)).any fun g =>
          outRoot ++ "/" ++ g.name ==
            replacePngWebp (outRoot ++ "/" ++ h.name)) = true
      · rw [if_pos hany]
        intro y hy
        obtain ⟨x, hx, rfl⟩ := List.mem_map.mp hy
        obtain ⟨hxs, hxpred⟩ := List.mem_filter.mp hx
        by_cases hm : (outRoot ++ "/" ++ x.name ==
            replacePngWebp (outRoot ++ "/" ++ h.name)) = true
        · rw [if_pos hm]
          exact Or.inr (Or.inr (webp_of_abs hnpw (eq_of_beq hm)))
        · rw [if_neg hm]
          rcases hinv x hxs with ⟨g, hgfs, hxg, hcase⟩ | h2 | h3
          · refine Or.inl ⟨g, hgfs, hxg, ?_⟩
            rcases hcase with hnil | htodo
            · exact Or.inl hnil
            · rcases List.mem_cons.mp htodo with rfl | hr
              · exfalso
                rw [hxg] at hxpred
                simp [beq_self_eq_true] at hxpred
              · exact Or.inr hr
          · exact Or.inr (Or.inl h2)
          · exact Or.inr (Or.inr h3)
      · rw [if_neg hany]
        intro y hy
        rcases List.mem_append.mp hy with hyl | hnew
        · obtain ⟨hys, hypred⟩ := List.mem_filter.mp hyl
          rcases hinv y hys with ⟨g, hgfs, hxg, hcase⟩ | h2 | h3
          · refine Or.inl ⟨g, hgfs, hxg, ?_⟩
            rcases hcase with hnil | htodo
            · exact Or.inl hnil
            · rcases List.mem_cons.mp htodo with rfl | hr
              · exfalso
                rw [hxg] at hypred
                simp [beq_self_eq_true] at hypred
              · exact Or.inr hr
          · exact Or.inr (Or.inl h2)
          · exact Or.inr (Or.inr h3)
        · rw [List.mem_singleton.mp hnew]
          refine Or.inr (Or.inr ?_)
          show endsWithStr
            (((replacePngWebp (outRoot ++ "/" ++ h.name)).data.drop
              (outRoot.data.length + 1)).asString) ".webp" = true
          rw [hnp, drop_append_path]
          exact replacePngWebp_ends _

end RunTwice

/-- Counterexample to C1 as stated, in two parts.  (a) The engine
records the watermark with `Date.now()` *before* awaiting the write
(plugin.ts lines 264-269): with one fresh 2-byte `.js` file and the
write landing one clock millisecond after the watermark is taken
(`tWr = 11 > tRec = 10`), the rewritten file's mtime (11) exceeds its
recorded watermark (10) and the second run performs one write instead
of zero.  (b) With webp conversion enabled and `webp` added to the
extension allowlist, the watermark of a converted file is recorded
under the old `.png` path only, so even with watermark and write at the
same instant (`tRec = tWr = 10`) the renamed `.webp` file has no
watermark, is picked up again, and the second run performs one write. -/
theorem watermark_race_counterexample :
    ((runClose smallOpts okCodecs noMatch noMatch "out" "dist" zeroCache
      (constSched 10) (constSched 11) [⟨"a.js", 5, [3, 4]⟩]).cacheAfter
        "out/a.js" = 10 ∧
    (runClose smallOpts okCodecs noMatch noMatch "out" "dist" zeroCache
      (constSched 10) (constSched 11) [⟨"a.js", 5, [3, 4]⟩]).fsAfter =
      [⟨"a.js", 11, [3]⟩] ∧
    countWrites (runClose smallOpts okCodecs noMatch noMatch "out" "dist"
      (runClose smallOpts okCodecs noMatch noMatch "out" "dist" zeroCache
        (constSched 10) (constSched 11) [⟨"a.js", 5, [3, 4]⟩]).cacheAfter
      (constSched 20) (constSched 21)
      (runClose smallOpts okCodecs noMatch noMatch "out" "dist" zeroCache
        (constSched 10) (constSched 11) [⟨"a.js", 5, [3, 4]⟩]).fsAfter).ops =
      1) ∧
    ((runClose webpExtOpts okCodecs noMatch noMatch "out" "dist" zeroCache
      (constSched 10) (constSched 10) [⟨"img.png", 5, [1, 2, 3]⟩]).fsAfter =
      [⟨"img.webp", 10, [7, 7]⟩] ∧
    (runClose webpExtOpts okCodecs noMatch noMatch "out" "dist" zeroCache
      (constSched 10) (constSched 10)
      [⟨"img.png", 5, [1, 2, 3]⟩]).cacheAfter "out/img.webp" = 0 ∧
    countWrites (runClose webpExtOpts okCodecs noMatch noMatch "out" "dist"
      (runClose webpExtOpts okCodecs noMatch noMatch "out" "dist" zeroCache
        (constSched 10) (constSched 10)
        [⟨"img.png", 5, [1, 2, 3]⟩]).cacheAfter
      (constSched 20) (constSched 21)
      (runClose webpExtOpts okCodecs noMatch noMatch "out" "dist" zeroCache
        (constSched 10) (constSched 10)
        [⟨"img.png", 5, [1, 2, 3]⟩]).fsAfter).ops = 1) :=
  ⟨⟨rfl, rfl, rfl⟩, ⟨rfl, rfl, rfl⟩⟩

/-- C1 amended: running the engine twice on the same unchanged output
tree, with the Change Tracker watermark carried over, performs zero
filesystem operations on the second run *provided* (a) every write's
resulting mtime does not exceed the watermark recorded for that file
(`tWr ≤ tRec`: the write lands in the same clock instant at which the
watermark was taken, which the code does not itself guarantee since it
records the watermark before awaiting the write), and (b) no file
carrying the next-gen `.webp` extension passes the extension allowlist
(true for the default allowlist; with `webp` added to `extensions`, a
converted file — whose watermark sits under the old `.png` path only —
is reprocessed).  Webp conversion itself may be on or off. -/
theorem second_run_performs_no_writes (opts : PluginOpts) (codecs : Codecs)
    (excl brexcl : String → Bool) (outRoot outDirRel : String)
    (cache tRec tWr tRec2 tWr2 : String → Nat) (fs : List FsFile)
    (hwx : ∀ name, endsWithStr name ".webp" = true →
      extensionTest opts name = false)
    (hnodup : (fs.map FsFile.name).Nodup)
    (hclock : ∀ q, tWr q ≤ tRec q) :
    (runClose opts codecs excl brexcl outRoot outDirRel
      (runClose opts codecs excl brexcl outRoot outDirRel cache tRec tWr
        fs).cacheAfter tRec2 tWr2
      (runClose opts codecs excl brexcl outRoot outDirRel cache tRec tWr
        fs).fsAfter).ops = [] := by
  have hnil : ∀ g' ∈ (runClose opts codecs excl brexcl outRoot outDirRel cache
      tRec tWr fs).fsAfter,
      (processFile opts codecs excl brexcl outRoot
        (runClose opts codecs excl brexcl outRoot outDirRel cache tRec tWr
          fs).cacheAfter tRec2 g').ops = [] := by
    intro g' hg'
    rw [runClose_fsAfter_blocks outDirRel fs] at hg'
    have hinv := @fold_blocks_inv opts codecs excl brexcl outRoot cache tRec
      tWr fs fs fs (fun g hg => hg)
      (fun x hx => Or.inl ⟨x, hx, rfl, Or.inr hx⟩)
    rcases hinv g' hg' with ⟨g, hgfs, rfl, hcase⟩ | ⟨g, c, hgfs, hops, rfl⟩ |
      hwebp
    · -- untouched file: same skip as in the first run
      rcases hcase with hops | habs
      · obtain ⟨s, t, rfl⟩ := List.append_of_mem hgfs
        rw [List.map_append, List.map_cons] at hnodup
        obtain ⟨hnd1, hnd2, hdisj⟩ := List.nodup_append.mp hnodup
        have hfs : ∀ x ∈ s, x.name ≠ g'.name := by
          intro x hx heq
          exact hdisj (List.mem_map_of_mem _ hx)
            (heq ▸ List.mem_cons_self _ _)
        have hft : ∀ x ∈ t, x.name ≠ g'.name := by
          intro x hx heq
          exact (List.nodup_cons.mp hnd2).1 (heq ▸ List.mem_map_of_mem _ hx)
        have hcache := @runClose_cacheAfter_at opts codecs excl brexcl outRoot
          cache tRec tWr outDirRel s t g' hfs hft
        exact @processFile_ops_nil_stable opts codecs excl brexcl outRoot
          cache tRec ((runClose opts codecs excl brexcl outRoot outDirRel
            cache tRec tWr (s ++ g' :: t)).cacheAfter) tRec2 g'
          (by rw [hcache, hops]; rfl) hops
      · exact absurd habs (List.not_mem_nil g')
    · -- in-place rewritten file: stale against its own watermark
      obtain ⟨s, t, rfl⟩ := List.append_of_mem hgfs
      rw [List.map_append, List.map_cons] at hnodup
      obtain ⟨hnd1, hnd2, hdisj⟩ := List.nodup_append.mp hnodup
      have hfs : ∀ x ∈ s, x.name ≠ g.name := by
        intro x hx heq
        exact hdisj (List.mem_map_of_mem _ hx) (heq ▸ List.mem_cons_self _ _)
      have hft : ∀ x ∈ t, x.name ≠ g.name := by
        intro x hx heq
        exact (List.nodup_cons.mp hnd2).1 (heq ▸ List.mem_map_of_mem _ hx)
      have hcache := @runClose_cacheAfter_at opts codecs excl brexcl outRoot
        cache tRec tWr outDirRel s t g hfs hft
      have hle : (⟨g.name, tWr (outRoot ++ "/" ++ g.name), c⟩ :
          FsFile).mtimeMs ≤
          (runClose opts codecs excl brexcl outRoot outDirRel cache tRec tWr
            (s ++ g :: t)).cacheAfter (outRoot ++ "/" ++
              (⟨g.name, tWr (outRoot ++ "/" ++ g.name), c⟩ : FsFile).name) := by
        show tWr (outRoot ++ "/" ++ g.name) ≤ _
        rw [hcache, hops]
        simp only [List.foldl_cons, List.foldl_nil]
        simp [applyOpCache]
        exact hclock _
      rw [processFile_stale hle]
    · -- renamed (.webp) file: rejected by the extension allowlist
      rw [processFile_noext g' (hwx g'.name hwebp)]
  rw [runClose_ops_eq]
  rw [List.flatten_eq_nil_iff]
  intro x hx
  obtain ⟨g', hg', rfl⟩ := List.mem_map.mp hx
  exact hnil g' hg'

/-- Witness for the amended C1: one fresh `.js` file under the default
allowlist (no `webp` extension), watermark and write landing at the
same instant (`tRec = tWr = 10`); the second run performs no
filesystem operation. -/
theorem second_run_performs_no_writes_witness :
    (runClose smallOpts okCodecs noMatch noMatch "out" "dist"
      (runClose smallOpts okCodecs noMatch noMatch "out" "dist" zeroCache
        (constSched 10) (constSched 10) [⟨"a.js", 5, [3, 4]⟩]).cacheAfter
      (constSched 20) (constSched 21)
      (runClose smallOpts okCodecs noMatch noMatch "out" "dist" zeroCache
        (constSched 10) (constSched 10) [⟨"a.js", 5, [3, 4]⟩]).fsAfter).ops =
      [] :=
  second_run_performs_no_writes smallOpts okCodecs noMatch noMatch "out"
    "dist" zeroCache (constSched 10) (constSched 10) (constSched 20)
    (constSched 21) [⟨"a.js", 5, [3, 4]⟩]
    (fun name h => extensionTest_webp_false rfl h) (by simp)
    (fun _ => Nat.le_refl 10)

end ViteCompress
